import Mathlib

/-!
Verification of the CompileTimeFSM-Cpp20 finite-state-machine framework
(`FSM.hpp`) and its reference example (`basic_fsm.hpp`).

The C++ source encodes states and events as types, transition rules as
template specializations of `FSM_Transition`, hooks as specializations of
`FSM_On_Enter` / `FSM_On_Exit` / `FSM_On_Tick`, and diagnostic names as
specializations of `FSM_State_Name`.  The shallow embedding below turns the
set of specializations a caller program declares into a value of
`FSMProgram`, and the `dispatch` member template into an explicit function
producing the next machine together with the list of hook invocations and
diagnostics it performs, in order.  Template-instantiation failure (a needed
specialization that does not exist, which in C++ aborts compilation) is
embedded as `Option.none`.
-/

namespace CTFSM

variable {σ ε : Type}

/-- One caller program built with the framework's macros: the collection of
template specializations visible to the engine.

* `derived_FSM_CriticalEvent e` models the concept of the same name in
  `FSM.hpp` (whether the event type derives from `FSM_CriticalEvent`).
* `exactRule s e` models a full specialization
  `FSM_Transition<s, e>` declared with `NEW_TRANSITION(s, e, t)`
  (`some t` when declared, `none` otherwise).  C++ forbids two full
  specializations for the same pair, so a partial map is the exact model.
* `wildcardRule e` models a partial specialization
  `FSM_Transition<State, e>` declared with `NEW_GENERIC_TRANSITION(e, t)`.
* `stateName s` models `FSM_State_Name<s>::name`; `NEW_STATE(x)` always
  registers the name `"s_x"`, so it is total on states.
* `eventName e` models `FSM_State_Name<e>::name` for event types.
  `NEW_EVENT(x)` registers `"e_x"`, but `NEW_CRITICAL_EVENT(x)` registers
  no `FSM_State_Name` specialization at all, so the lookup is partial:
  `none` means the specialization does not exist and any instantiation
  that needs it is ill-formed. -/
structure FSMProgram (σ ε : Type) where
  derived_FSM_CriticalEvent : ε → Bool
  exactRule : σ → ε → Option σ
  wildcardRule : ε → Option σ
  stateName : σ → String
  eventName : ε → Option String

/-- The runtime wrapper `FSM<State>`: a zero-size class whose only datum is
its state type parameter, embedded as a one-field structure. -/
structure FSM (σ : Type) where
  state : σ
  deriving DecidableEq

/-- One observable action performed during construction or dispatch: a hook
invocation (`FSM_On_Enter<s>::exec()`, `FSM_On_Exit<s>::exec()`,
`FSM_On_Tick<s>::exec()`) or the unhandled-event diagnostic, which carries
the two names `FSM_Debug_Printer` interpolates into its fixed message
format, in print order (event name first, state name second). -/
inductive Action (σ : Type)
  | enter (s : σ)
  | exit (s : σ)
  | tick (s : σ)
  | unhandled (eventName stateName : String)
  deriving DecidableEq

/-- The message printed by `FSM_Debug_Printer<State, Event>::print_unhandled_event`,
given the two interpolated names. -/
def print_unhandled_event (eventName stateName : String) : String :=
  "[FSM DEBUG]: Unhandled event <" ++ eventName ++ "> in state <" ++ stateName ++ ">\n"

/-- Resolution of `FSM_Transition<s, e>::next_state`: C++ partial ordering
always prefers a full specialization (an exact rule) over the partial
specialization a `NEW_GENERIC_TRANSITION` declares (the wildcard rule);
with neither, the primary template has no `next_state` member. -/
def FSM_Transition (P : FSMProgram σ ε) (s : σ) (e : ε) : Option σ :=
  match P.exactRule s e with
  | some t => some t
  | none => P.wildcardRule e

/-- The concept `can_handle_event<State, Event>`: whether
`FSM_Transition<State, Event>::next_state` exists. -/
def can_handle_event (P : FSMProgram σ ε) (s : σ) (e : ε) : Bool :=
  (FSM_Transition P s e).isSome

/-- The constructor `FSM<State>::FSM()`: produces the instance and runs
`FSM_On_Enter<State>::exec()`, its only action. -/
def FSM_ctor (s : σ) : FSM σ × List (Action σ) :=
  (⟨s⟩, [Action.enter s])

/-- A host application invoking `FSM_On_Tick<s>::exec()` directly; the
engine itself never calls it. -/
def onTickCall (s : σ) : List (Action σ) :=
  [Action.tick s]

/-- `FSM<State>::dispatch(e)`: returns the resulting instance and the list
of actions performed, in order.  Mirrors the source:

* no `next_state` member: `FSM_Debug_Printer<State, Event>::print_unhandled_event()`
  then `return *this` — and the printer needs `FSM_State_Name<Event>::name`,
  so the branch is ill-formed (`none`) when the event has no registered name;
* otherwise: `FSM_On_Exit<State>::exec()` unless the event satisfies
  `derived_FSM_CriticalEvent`, then `return FSM<NextState>{}`, whose
  constructor runs the enter hook. -/
def dispatch (P : FSMProgram σ ε) (m : FSM σ) (e : ε) :
    Option (FSM σ × List (Action σ)) :=
  match FSM_Transition P m.state e with
  | none =>
    match P.eventName e with
    | some en => some (m, [Action.unhandled en (P.stateName m.state)])
    | none => none
  | some t =>
    let pre : List (Action σ) :=
      if P.derived_FSM_CriticalEvent e then [] else [Action.exit m.state]
    let c := FSM_ctor t
    some (c.1, pre ++ c.2)

/-- The actions dispatch performs, `[]` when the instantiation is ill-formed. -/
def dispatchTrace (P : FSMProgram σ ε) (m : FSM σ) (e : ε) : List (Action σ) :=
  (dispatch P m e).elim [] Prod.snd

/-- Repeated dispatch of a list of events, threading the instance the way
the example's input loop rebinds its variant (`fsm = processInputEvent(fsm, ...)`). -/
def runFSM (P : FSMProgram σ ε) : FSM σ → List ε → FSM σ
  | m, [] => m
  | m, e :: es => runFSM P ((dispatch P m e).elim m Prod.fst) es

/-- Two `FSM` values with the same current state are the same value: the
class has no other member. -/
theorem FSM_eq_of_state_eq {m₁ m₂ : FSM σ} (h : m₁.state = m₂.state) :
    m₁ = m₂ := by
  cases m₁
  cases m₂
  cases h
  rfl

end CTFSM

namespace CTFSM

/-! The reference example `basic_fsm.hpp`: five states, four ordinary
events, two critical events, five exact transitions, two wildcard
transitions. -/

/-- The states declared by `NEW_STATE(init/idle/tx/rx/error)`. -/
inductive BState
  | s_init
  | s_idle
  | s_tx
  | s_rx
  | s_error
  deriving DecidableEq

/-- The events declared by `NEW_EVENT(ready/startTx/startRx/done)` and
`NEW_CRITICAL_EVENT(error/reset)`. -/
inductive BEvent
  | e_ready
  | e_startTx
  | e_startRx
  | e_done
  | ce_error
  | ce_reset
  deriving DecidableEq

/-- The example program: the specializations `basic_fsm.hpp` declares.
`ce_error` and `ce_reset` derive from `FSM_CriticalEvent`; the exact rules
are the five `NEW_TRANSITION` lines, the wildcard rules the two
`NEW_GENERIC_TRANSITION` lines; `NEW_STATE` and `NEW_EVENT` register the
names shown; `NEW_CRITICAL_EVENT` registers no name. -/
def basicProg : FSMProgram BState BEvent where
  derived_FSM_CriticalEvent := fun e =>
    match e with
    | .ce_error => true
    | .ce_reset => true
    | _ => false
  exactRule := fun s e =>
    match s, e with
    | .s_init, .e_ready => some .s_idle
    | .s_idle, .e_startTx => some .s_tx
    | .s_idle, .e_startRx => some .s_rx
    | .s_tx, .e_done => some .s_idle
    | .s_rx, .e_done => some .s_idle
    | _, _ => none
  wildcardRule := fun e =>
    match e with
    | .ce_error => some .s_error
    | .ce_reset => some .s_init
    | _ => none
  stateName := fun s =>
    match s with
    | .s_init => "s_init"
    | .s_idle => "s_idle"
    | .s_tx => "s_tx"
    | .s_rx => "s_rx"
    | .s_error => "s_error"
  eventName := fun e =>
    match e with
    | .e_ready => some "e_ready"
    | .e_startTx => some "e_startTx"
    | .e_startRx => some "e_startRx"
    | .e_done => some "e_done"
    | .ce_error => none
    | .ce_reset => none

/-- A caller program written with the same macros in which the critical
event `ce_error` is declared but given no transition rule (neither
`NEW_TRANSITION` nor `NEW_GENERIC_TRANSITION` mentions it): the wildcard
rules of the example with the `ce_error` one removed. -/
def noRuleCriticalProg : FSMProgram BState BEvent where
  derived_FSM_CriticalEvent := basicProg.derived_FSM_CriticalEvent
  exactRule := basicProg.exactRule
  wildcardRule := fun e =>
    match e with
    | .ce_reset => some .s_init
    | _ => none
  stateName := basicProg.stateName
  eventName := basicProg.eventName

/-- A caller program with both an exact and a wildcard rule for the same
(state, event) pair: the example extended by the full specialization
`NEW_TRANSITION(s_tx, ce_error, s_idle)` alongside the partial
`NEW_GENERIC_TRANSITION(ce_error, s_error)` — legal C++, with the full
specialization preferred. -/
def overlapProg : FSMProgram BState BEvent where
  derived_FSM_CriticalEvent := basicProg.derived_FSM_CriticalEvent
  exactRule := fun s e =>
    match s, e with
    | .s_tx, .ce_error => some .s_idle
    | _, _ => basicProg.exactRule s e
  wildcardRule := basicProg.wildcardRule
  stateName := basicProg.stateName
  eventName := basicProg.eventName

end CTFSM

namespace CTFSM

variable {σ ε : Type}

/-! Characterization lemmas for the three branches of `dispatch`. -/

/-- Resolved branch: with `FSM_Transition<State, Event>::next_state = t`,
dispatch runs the exit hook unless the event is critical, then the
constructor of `FSM<t>` (hence its enter hook), and returns the new
instance. -/
theorem dispatch_eq_transition (P : FSMProgram σ ε) (m : FSM σ) (e : ε) (t : σ)
    (h : FSM_Transition P m.state e = some t) :
    dispatch P m e = some (⟨t⟩,
      (if P.derived_FSM_CriticalEvent e then [] else [Action.exit m.state])
        ++ [Action.enter t]) := by
  unfold dispatch
  rw [h]
  rfl

/-- Unresolved branch with a registered event name: dispatch prints the
diagnostic with the event's and the state's names and returns `*this`. -/
theorem dispatch_eq_diag (P : FSMProgram σ ε) (m : FSM σ) (e : ε) (en : String)
    (h1 : FSM_Transition P m.state e = none) (h2 : P.eventName e = some en) :
    dispatch P m e = some (m, [Action.unhandled en (P.stateName m.state)]) := by
  unfold dispatch
  rw [h1, h2]

/-- Unresolved branch with no registered event name: the debug printer's
`FSM_State_Name<Event>::name` lookup has no specialization, so the
instantiation is ill-formed. -/
theorem dispatch_eq_illformed (P : FSMProgram σ ε) (m : FSM σ) (e : ε)
    (h1 : FSM_Transition P m.state e = none) (h2 : P.eventName e = none) :
    dispatch P m e = none := by
  unfold dispatch
  rw [h1, h2]

/-- Claim C1: for every state and critical event that the transition table
resolves to a target `t`, dispatch invokes `t`'s enter hook and yields
`FSM<t>`, and no exit hook of any state is invoked. -/
theorem dispatch_critical_skips_exit (P : FSMProgram σ ε) (m : FSM σ) (e : ε) (t : σ)
    (hres : FSM_Transition P m.state e = some t)
    (hcrit : P.derived_FSM_CriticalEvent e = true) :
    dispatch P m e = some (⟨t⟩, [Action.enter t]) ∧
    ∀ s, Action.exit s ∉ dispatchTrace P m e := by
  have h := dispatch_eq_transition P m e t hres
  simp only [hcrit, if_true, List.nil_append] at h
  refine ⟨h, ?_⟩
  intro s
  simp [dispatchTrace, h]

/-- Claim C1 witness: in the example, the critical `ce_reset` from `s_tx`
resolves (by wildcard) to `s_init`; dispatch runs only `s_init`'s enter
hook and no exit hook. -/
theorem dispatch_critical_skips_exit_witness :
    FSM_Transition basicProg BState.s_tx BEvent.ce_reset = some BState.s_init ∧
    basicProg.derived_FSM_CriticalEvent BEvent.ce_reset = true ∧
    (dispatch basicProg ⟨BState.s_tx⟩ BEvent.ce_reset
        = some (⟨BState.s_init⟩, [Action.enter BState.s_init]) ∧
      ∀ s, Action.exit s ∉ dispatchTrace basicProg ⟨BState.s_tx⟩ BEvent.ce_reset) :=
  ⟨by decide, by decide,
    dispatch_critical_skips_exit basicProg ⟨BState.s_tx⟩ BEvent.ce_reset BState.s_init
      (by decide) (by decide)⟩

/-- Claim C2: when both an exact rule `(s, e) -> t₁` and a wildcard rule
`e -> t₂` are registered, resolution picks the exact rule's target and
dispatch lands in `t₁`. -/
theorem exact_rule_beats_wildcard (P : FSMProgram σ ε) (m : FSM σ) (e : ε) (t₁ t₂ : σ)
    (hex : P.exactRule m.state e = some t₁)
    (_hw : P.wildcardRule e = some t₂) :
    FSM_Transition P m.state e = some t₁ ∧
    ∃ tr, dispatch P m e = some (⟨t₁⟩, tr) := by
  have hres : FSM_Transition P m.state e = some t₁ := by
    unfold FSM_Transition
    rw [hex]
  exact ⟨hres, _, dispatch_eq_transition P m e t₁ hres⟩

/-- Claim C2 witness: in `overlapProg` both `NEW_TRANSITION(s_tx, ce_error,
s_idle)` and `NEW_GENERIC_TRANSITION(ce_error, s_error)` exist; dispatching
`ce_error` from `s_tx` follows the exact rule to `s_idle`. -/
theorem exact_rule_beats_wildcard_witness :
    overlapProg.exactRule BState.s_tx BEvent.ce_error = some BState.s_idle ∧
    overlapProg.wildcardRule BEvent.ce_error = some BState.s_error ∧
    (FSM_Transition overlapProg BState.s_tx BEvent.ce_error = some BState.s_idle ∧
      ∃ tr, dispatch overlapProg ⟨BState.s_tx⟩ BEvent.ce_error = some (⟨BState.s_idle⟩, tr)) :=
  ⟨by decide, by decide,
    exact_rule_beats_wildcard overlapProg ⟨BState.s_tx⟩ BEvent.ce_error
      BState.s_idle BState.s_error (by decide) (by decide)⟩

/-- Claim C3: for a (state, event) pair with no matching rule (and the
event's name registered, as every `NEW_EVENT` event's is), dispatch returns
the same instance, its trace is exactly one diagnostic carrying the event's
name and the state's name, and no enter, exit or tick hook is invoked. -/
theorem dispatch_unhandled (P : FSMProgram σ ε) (m : FSM σ) (e : ε) (en : String)
    (hun : FSM_Transition P m.state e = none)
    (hname : P.eventName e = some en) :
    dispatch P m e = some (m, [Action.unhandled en (P.stateName m.state)]) ∧
    ∀ s, Action.enter s ∉ dispatchTrace P m e ∧
      Action.exit s ∉ dispatchTrace P m e ∧
      Action.tick s ∉ dispatchTrace P m e := by
  have h := dispatch_eq_diag P m e en hun hname
  refine ⟨h, ?_⟩
  intro s
  refine ⟨?_, ?_, ?_⟩ <;> simp [dispatchTrace, h]

/-- Claim C3 witness: in the example, `e_startTx` has no rule from `s_rx`;
dispatch stays in `s_rx`, emits the one diagnostic with both names, and
fires no hook. -/
theorem dispatch_unhandled_witness :
    FSM_Transition basicProg BState.s_rx BEvent.e_startTx = none ∧
    basicProg.eventName BEvent.e_startTx = some "e_startTx" ∧
    (dispatch basicProg ⟨BState.s_rx⟩ BEvent.e_startTx
        = some (⟨BState.s_rx⟩, [Action.unhandled "e_startTx" (basicProg.stateName BState.s_rx)]) ∧
      ∀ s, Action.enter s ∉ dispatchTrace basicProg ⟨BState.s_rx⟩ BEvent.e_startTx ∧
        Action.exit s ∉ dispatchTrace basicProg ⟨BState.s_rx⟩ BEvent.e_startTx ∧
        Action.tick s ∉ dispatchTrace basicProg ⟨BState.s_rx⟩ BEvent.e_startTx) :=
  ⟨by decide, by decide,
    dispatch_unhandled basicProg ⟨BState.s_rx⟩ BEvent.e_startTx "e_startTx"
      (by decide) (by decide)⟩

/-- Claim C4: for a non-critical event with an exact rule `(s, e) -> t`,
dispatch yields `FSM<t>` and runs the source's exit hook before the
target's enter hook, in that order. -/
theorem dispatch_exact_noncritical (P : FSMProgram σ ε) (m : FSM σ) (e : ε) (t : σ)
    (hex : P.exactRule m.state e = some t)
    (hord : P.derived_FSM_CriticalEvent e = false) :
    dispatch P m e = some (⟨t⟩, [Action.exit m.state, Action.enter t]) := by
  have hres : FSM_Transition P m.state e = some t := by
    unfold FSM_Transition
    rw [hex]
  have h := dispatch_eq_transition P m e t hres
  simp only [hord] at h
  simpa using h

/-- Claim C4 witness: in the example, `e_ready` from `s_init` follows the
exact rule to `s_idle`, firing `s_init`'s exit hook then `s_idle`'s enter
hook. -/
theorem dispatch_exact_noncritical_witness :
    basicProg.exactRule BState.s_init BEvent.e_ready = some BState.s_idle ∧
    basicProg.derived_FSM_CriticalEvent BEvent.e_ready = false ∧
    dispatch basicProg ⟨BState.s_init⟩ BEvent.e_ready
      = some (⟨BState.s_idle⟩, [Action.exit BState.s_init, Action.enter BState.s_idle]) :=
  ⟨by decide, by decide,
    dispatch_exact_noncritical basicProg ⟨BState.s_init⟩ BEvent.e_ready BState.s_idle
      (by decide) (by decide)⟩

/-- Claim C5: for a state with no exact rule for an event that has a
wildcard rule `e -> t`, dispatch yields the wildcard's target with the
same hook sequencing as an exact-rule transition: exit then enter for a
non-critical event, exit skipped for a critical one. -/
theorem dispatch_wildcard (P : FSMProgram σ ε) (m : FSM σ) (e : ε) (t : σ)
    (hnoex : P.exactRule m.state e = none)
    (hw : P.wildcardRule e = some t) :
    dispatch P m e = some (⟨t⟩,
      (if P.derived_FSM_CriticalEvent e then [] else [Action.exit m.state])
        ++ [Action.enter t]) := by
  have hres : FSM_Transition P m.state e = some t := by
    unfold FSM_Transition
    rw [hnoex, hw]
  exact dispatch_eq_transition P m e t hres

/-- Claim C5 witness: in the example, `s_idle` has no exact rule for the
critical `ce_error`, whose wildcard rule targets `s_error`; dispatch lands
in `s_error` running only its enter hook (exit skipped: critical). -/
theorem dispatch_wildcard_witness :
    basicProg.exactRule BState.s_idle BEvent.ce_error = none ∧
    basicProg.wildcardRule BEvent.ce_error = some BState.s_error ∧
    dispatch basicProg ⟨BState.s_idle⟩ BEvent.ce_error
      = some (⟨BState.s_error⟩,
          (if basicProg.derived_FSM_CriticalEvent BEvent.ce_error
            then [] else [Action.exit BState.s_idle]) ++ [Action.enter BState.s_error]) :=
  ⟨by decide, by decide,
    dispatch_wildcard basicProg ⟨BState.s_idle⟩ BEvent.ce_error BState.s_error
      (by decide) (by decide)⟩

end CTFSM

namespace CTFSM

variable {σ ε : Type}

/-- Claim C6 evaluated on the code: `NEW_CRITICAL_EVENT` registers no
`FSM_State_Name` specialization, so the example's registered critical
events `ce_error` and `ce_reset` carry no diagnostic name; in a caller
program (same macros) where `ce_error` has no transition rule, the
unhandled-critical dispatch cannot form its diagnostic — the
instantiation is ill-formed instead of emitting both names. -/
theorem critical_event_lacks_name :
    basicProg.eventName BEvent.ce_error = none ∧
    basicProg.eventName BEvent.ce_reset = none ∧
    dispatch noRuleCriticalProg ⟨BState.s_init⟩ BEvent.ce_error = none := by
  decide

/-- Claim C7: constructing `FSM<s>` yields the instance in state `s` and
invokes exactly `s`'s enter hook — one action, no exit, no tick. -/
theorem FSM_ctor_enter_once (s : σ) :
    FSM_ctor s = (⟨s⟩, [Action.enter s]) := rfl

/-- Claim C8: no tick hook of any state appears in the actions of any
dispatch or of any construction; `FSM_On_Tick<s>::exec()` produces a tick
action only when the host calls it itself. -/
theorem tick_never_invoked (P : FSMProgram σ ε) (m : FSM σ) (e : ε) (s s' : σ) :
    Action.tick s ∉ dispatchTrace P m e ∧
    Action.tick s ∉ (FSM_ctor s').2 ∧
    onTickCall s = [Action.tick s] := by
  refine ⟨?_, by simp [FSM_ctor], rfl⟩
  cases h1 : FSM_Transition P m.state e with
  | none =>
    cases h2 : P.eventName e with
    | none => simp [dispatchTrace, dispatch_eq_illformed P m e h1 h2]
    | some en => simp [dispatchTrace, dispatch_eq_diag P m e en h1 h2]
  | some t =>
    have h := dispatch_eq_transition P m e t h1
    by_cases hc : P.derived_FSM_CriticalEvent e = true
    · simp [dispatchTrace, h, hc]
    · simp [dispatchTrace, h, hc]

/-- Claim C9: dispatch is a pure function of the current state — after any
two dispatch histories (from any starting instances) that end in the same
current state, dispatching the same event gives identical results: same
resulting instance, same actions, no hidden counters or history. -/
theorem dispatch_pure (P : FSMProgram σ ε) (m₀ m₀' : FSM σ) (l₁ l₂ : List ε)
    (h : (runFSM P m₀ l₁).state = (runFSM P m₀' l₂).state) (e : ε) :
    dispatch P (runFSM P m₀ l₁) e = dispatch P (runFSM P m₀' l₂) e := by
  rw [FSM_eq_of_state_eq h]

/-- Claim C9 witness: in the example, the history ready/startTx/done from
`s_init` ends in `s_idle`, as does the empty history from `s_idle`;
dispatching `e_startTx` from both gives identical results. -/
theorem dispatch_pure_witness :
    (runFSM basicProg ⟨BState.s_init⟩ [BEvent.e_ready, BEvent.e_startTx, BEvent.e_done]).state
      = (runFSM basicProg ⟨BState.s_idle⟩ []).state ∧
    dispatch basicProg
        (runFSM basicProg ⟨BState.s_init⟩ [BEvent.e_ready, BEvent.e_startTx, BEvent.e_done])
        BEvent.e_startTx
      = dispatch basicProg (runFSM basicProg ⟨BState.s_idle⟩ []) BEvent.e_startTx :=
  ⟨by decide,
    dispatch_pure basicProg ⟨BState.s_init⟩ ⟨BState.s_idle⟩
      [BEvent.e_ready, BEvent.e_startTx, BEvent.e_done] [] (by decide) BEvent.e_startTx⟩

/-- Claim C10: a wildcard rule `e -> t` also matches when the current state
is already `t` (and no exact rule shadows it): dispatch from `t` is a
self-transition back to `t`, and `t`'s enter hook fires again. -/
theorem wildcard_self_transition (P : FSMProgram σ ε) (e : ε) (t : σ)
    (hnoex : P.exactRule t e = none)
    (hw : P.wildcardRule e = some t) :
    ∃ tr, dispatch P ⟨t⟩ e = some (⟨t⟩, tr) ∧ Action.enter t ∈ tr := by
  have hres : FSM_Transition P (FSM.state ⟨t⟩) e = some t := by
    unfold FSM_Transition
    rw [hnoex, hw]
  refine ⟨_, dispatch_eq_transition P ⟨t⟩ e t hres, ?_⟩
  simp

/-- Claim C10 witness: in the example, dispatching the critical `ce_error`
while already in `s_error` re-enters `s_error`, firing its enter hook
again. -/
theorem wildcard_self_transition_witness :
    basicProg.exactRule BState.s_error BEvent.ce_error = none ∧
    basicProg.wildcardRule BEvent.ce_error = some BState.s_error ∧
    (∃ tr, dispatch basicProg ⟨BState.s_error⟩ BEvent.ce_error
        = some (⟨BState.s_error⟩, tr) ∧ Action.enter BState.s_error ∈ tr) :=
  ⟨by decide, by decide,
    wildcard_self_transition basicProg BEvent.ce_error BState.s_error
      (by decide) (by decide)⟩

end CTFSM
